import Mathlib

/-!
Shallow embedding of the `rotations` repository (files `rotations3d.py` and
`rotate_vector_collection.py`) over exact real scalars, together with proofs
of the specification claims.

Conventions of the embedding:
* numpy float64 scalars are modelled as real numbers; properties stated by the
  spec "to floating tolerance" are proved as exact equalities of the real
  computation;
* numpy arrays of shape (npts, 3) are `List Vec3`, arrays of shape
  (npts, 3, 3) are `List Mat3`; per-index (vectorised) numpy operations become
  `List.zipWith` / `List.map` of the per-element operation;
* python functions that can raise are modelled with `Except PyErr`;
* the helper module `vector_utilities` (elementwise_dot, elementwise_norm,
  normalized_vectors, angles_between_list_of_vectors) is imported by both
  source files but is not part of the repository sources; those four
  functions are modelled from the spec (section 6, "External collaborator
  contract") and are marked as such in their doc comments;
* NaN propagation of numpy (needed for the zero-axis claim) is modelled
  separately, in the `NFloat` section, by scalars `NF := nan | val ℝ`.
-/

namespace Rotations

/-- Error taxonomy of the spec (section 7) plus the two python runtime failure
modes that the sources can actually produce: `shapeMismatch` covers both the
`assert ndim_rotm==ndim_vec` AssertionError and numpy's ValueError on
incompatible `dot`/`einsum` operand shapes; `outOfRange` covers the two
assertions on the interpolation fraction `p`; `nameError` is python's NameError
(raised by `project_onto_plane`, whose return statement uses an unbound name);
`unsupported` marks one argument-shape corner (`np.dot` of a rank-2 matrix
with a transposed rank-3 vector array) whose numpy axis-contraction behaviour
is not modelled because no theorem below depends on it. -/
inductive PyErr where
  | shapeMismatch : PyErr
  | outOfRange : PyErr
  | nameError : PyErr
  | unsupported : PyErr
deriving DecidableEq

/-- A 3d vector (one row of a numpy array of shape (npts, 3)). -/
@[ext]
structure Vec3 where
  x : ℝ
  y : ℝ
  z : ℝ

/-- The zero 3d vector. -/
def zero3 : Vec3 := ⟨0, 0, 0⟩

/-- Componentwise sum of 3d vectors. -/
def addV (a b : Vec3) : Vec3 := ⟨a.x + b.x, a.y + b.y, a.z + b.z⟩

/-- Scalar multiple of a 3d vector. -/
def smul3 (t : ℝ) (a : Vec3) : Vec3 := ⟨t * a.x, t * a.y, t * a.z⟩

/-- Dot product of two 3d vectors (`vector_utilities.elementwise_dot` acts as
this map on each index of its two list arguments). -/
def dot3 (a b : Vec3) : ℝ := a.x * b.x + a.y * b.y + a.z * b.z

/-- Cross product of two 3d vectors (`np.cross` acts as this map on each index). -/
def cross3 (a b : Vec3) : Vec3 :=
  ⟨a.y * b.z - a.z * b.y, a.z * b.x - a.x * b.z, a.x * b.y - a.y * b.x⟩

/-- Euclidean norm of a 3d vector (`vector_utilities.elementwise_norm` acts as
this map on each index). -/
noncomputable def norm3 (a : Vec3) : ℝ := Real.sqrt (dot3 a a)

/-- Modelled from the spec: `vector_utilities.normalize` ("per-index unit
vector"), the per-index map of `normalized_vectors`, which is imported by both
source files but whose implementation is not part of the repository sources.
Each component is divided by the vector's norm.  (For the zero vector the spec
declares the result "undefined/NaN"; real division by zero is not NaN, so no
claim about zero vectors is settled against this definition — the NaN
behaviour is modelled separately by `NFloat.normalized3`.) -/
noncomputable def normalized3 (a : Vec3) : Vec3 :=
  ⟨a.x / norm3 a, a.y / norm3 a, a.z / norm3 a⟩

/-- Modelled from the spec: `vector_utilities.angle_between` / per-index map of
`angles_between_list_of_vectors` — "per-index angle in [0, π]" between the two
vectors.  In exact real arithmetic the numerically stable formulation required
by the spec and the arccosine of the dot product of the normalized vectors
agree on every pair of nonzero vectors, and arccosine is the form with the
lemma support needed here. -/
noncomputable def angle_between (a b : Vec3) : ℝ :=
  Real.arccos (dot3 (normalized3 a) (normalized3 b))

/-- A 3×3 matrix (one slice of a numpy array of shape (npts, 3, 3)); `mAB` is
the entry at row `A`, column `B`. -/
@[ext]
structure Mat3 where
  m00 : ℝ
  m01 : ℝ
  m02 : ℝ
  m10 : ℝ
  m11 : ℝ
  m12 : ℝ
  m20 : ℝ
  m21 : ℝ
  m22 : ℝ

/-- Entrywise sum of 3×3 matrices. -/
def matAdd3 (A B : Mat3) : Mat3 :=
  ⟨A.m00 + B.m00, A.m01 + B.m01, A.m02 + B.m02,
   A.m10 + B.m10, A.m11 + B.m11, A.m12 + B.m12,
   A.m20 + B.m20, A.m21 + B.m21, A.m22 + B.m22⟩

/-- Scalar multiple of a 3×3 matrix. -/
def smulMat3 (t : ℝ) (A : Mat3) : Mat3 :=
  ⟨t * A.m00, t * A.m01, t * A.m02,
   t * A.m10, t * A.m11, t * A.m12,
   t * A.m20, t * A.m21, t * A.m22⟩

/-- Matrix–vector product. -/
def matVec3 (A : Mat3) (v : Vec3) : Vec3 :=
  ⟨A.m00 * v.x + A.m01 * v.y + A.m02 * v.z,
   A.m10 * v.x + A.m11 * v.y + A.m12 * v.z,
   A.m20 * v.x + A.m21 * v.y + A.m22 * v.z⟩

/-- Matrix–matrix product. -/
def matMul3 (A B : Mat3) : Mat3 :=
  ⟨A.m00 * B.m00 + A.m01 * B.m10 + A.m02 * B.m20,
   A.m00 * B.m01 + A.m01 * B.m11 + A.m02 * B.m21,
   A.m00 * B.m02 + A.m01 * B.m12 + A.m02 * B.m22,
   A.m10 * B.m00 + A.m11 * B.m10 + A.m12 * B.m20,
   A.m10 * B.m01 + A.m11 * B.m11 + A.m12 * B.m21,
   A.m10 * B.m02 + A.m11 * B.m12 + A.m12 * B.m22,
   A.m20 * B.m00 + A.m21 * B.m10 + A.m22 * B.m20,
   A.m20 * B.m01 + A.m21 * B.m11 + A.m22 * B.m21,
   A.m20 * B.m02 + A.m21 * B.m12 + A.m22 * B.m22⟩

/-- Transpose of a 3×3 matrix. -/
def transpose3 (A : Mat3) : Mat3 :=
  ⟨A.m00, A.m10, A.m20, A.m01, A.m11, A.m21, A.m02, A.m12, A.m22⟩

/-- Determinant of a 3×3 matrix. -/
def det3 (A : Mat3) : ℝ :=
  A.m00 * (A.m11 * A.m22 - A.m12 * A.m21)
    - A.m01 * (A.m10 * A.m22 - A.m12 * A.m20)
    + A.m02 * (A.m10 * A.m21 - A.m11 * A.m20)

/-- The 3×3 identity matrix. -/
def I3 : Mat3 := ⟨1, 0, 0, 0, 1, 0, 0, 0, 1⟩

/-- Outer product `a bᵀ` of two 3d vectors. -/
def outer3 (a b : Vec3) : Mat3 :=
  ⟨a.x * b.x, a.x * b.y, a.x * b.z,
   a.y * b.x, a.y * b.y, a.y * b.z,
   a.z * b.x, a.z * b.y, a.z * b.z⟩

/-- The skew-symmetric cross-product matrix of a 3d vector, i.e. the matrix
with `skew3 k * w = k × w` for all `w`. -/
def skew3 (k : Vec3) : Mat3 :=
  ⟨0, -k.z, k.y, k.z, 0, -k.x, -k.y, k.x, 0⟩

namespace R3D

/-!  Embedding of `rotations3d.py`.  Each vectorised function is the
`List.zipWith`/`List.map` of a per-index function carrying the same body. -/

/-- One slice of the `R1` array of `rotation_matrices_from_angles`
(`R1[:, 0, 0] = cosa` and likewise for the other two diagonal entries). -/
def R1mat (cosa : ℝ) : Mat3 := ⟨cosa, 0, 0, 0, cosa, 0, 0, 0, cosa⟩

/-- One slice of the `R2` array of `rotation_matrices_from_angles`:
`directions[..., None] * directions[:, None, :]` (the outer product of the
normalized axis with itself) scaled by `1 - cosa`. -/
def R2mat (cosa : ℝ) (k : Vec3) : Mat3 :=
  ⟨(1 - cosa) * (k.x * k.x), (1 - cosa) * (k.x * k.y), (1 - cosa) * (k.x * k.z),
   (1 - cosa) * (k.y * k.x), (1 - cosa) * (k.y * k.y), (1 - cosa) * (k.y * k.z),
   (1 - cosa) * (k.z * k.x), (1 - cosa) * (k.z * k.y), (1 - cosa) * (k.z * k.z)⟩

/-- One slice of the `R3` array of `rotation_matrices_from_angles`, built from
`sdir = sina * directions` by
`R3[:, [1, 2, 0], [2, 0, 1]] -= directions; R3[:, [2, 0, 1], [1, 2, 0]] += directions`:
entry (1,2) gets `-sdir.x`, (2,0) gets `-sdir.y`, (0,1) gets `-sdir.z`,
entry (2,1) gets `+sdir.x`, (0,2) gets `+sdir.y`, (1,0) gets `+sdir.z`. -/
def R3mat (sdir : Vec3) : Mat3 :=
  ⟨0, -sdir.z, sdir.y, sdir.z, 0, -sdir.x, -sdir.y, sdir.x, 0⟩

/-- The Rodrigues assembly `R1 + R2 + R3` of `rotation_matrices_from_angles`
for one index, as a function of `cosa`, `sina` and the normalized axis. -/
def rodrigues (cosa sina : ℝ) (k : Vec3) : Mat3 :=
  matAdd3 (matAdd3 (R1mat cosa) (R2mat cosa k)) (R3mat (smul3 sina k))

/-- Per-index body of `rotation_matrices_from_angles`: normalize the axis,
then assemble `R1 + R2 + R3` from `cos angle` and `sin angle`. -/
noncomputable def rotation_matrix_from_angle (angle : ℝ) (direction : Vec3) : Mat3 :=
  rodrigues (Real.cos angle) (Real.sin angle) (normalized3 direction)

/-- `rotation_matrices_from_angles(angles, directions)` (rotations3d.py,
lines 96–116): per-index Rodrigues matrices. -/
noncomputable def rotation_matrices_from_angles
    (angles : List ℝ) (directions : List Vec3) : List Mat3 :=
  List.zipWith rotation_matrix_from_angle angles directions

/-- `rotate_vector_collection(rotation_matrices, vectors)` (rotations3d.py,
lines 54–62) in the branch taken for a rank-3 matrix collection: the einsum
`'ijk,ik->ij'`, i.e. index-aligned matrix–vector application.  The `(3, 3)`
single-matrix branch and the raw shape dispatch of both source files are
modelled in the `RVC` section below on untyped (list-of-list) arrays. -/
def rotate_vector_collection (rotation_matrices : List Mat3) (vectors : List Vec3) :
    List Vec3 :=
  List.zipWith matVec3 rotation_matrices vectors

/-- Per-index body of `vectors_normal_to_planes`: `normalized_vectors(np.cross(x, y))`. -/
noncomputable def vector_normal_to_plane (x y : Vec3) : Vec3 :=
  normalized3 (cross3 x y)

/-- `vectors_normal_to_planes(x, y)` (rotations3d.py, lines 279–309). -/
noncomputable def vectors_normal_to_planes (x y : List Vec3) : List Vec3 :=
  List.zipWith vector_normal_to_plane x y

/-- Per-index body of `rotation_matrices_from_vectors` (rotations3d.py,
lines 119–165): normalize `v0` and `v1`, take the normalized cross product as
axis and the angle between as angle; where the axis is NaN (numpy: the cross
product has norm zero, so its normalization divides 0 by 0) or the angle is
zero, substitute the normalized `v0` as axis. -/
noncomputable def rotation_matrix_from_vectors (v0 v1 : Vec3) : Mat3 :=
  let u0 := normalized3 v0
  let u1 := normalized3 v1
  let direction := vector_normal_to_plane u0 u1
  let angle := angle_between u0 u1
  let direction2 := if norm3 (cross3 u0 u1) = 0 ∨ angle = 0 then u0 else direction
  rotation_matrix_from_angle angle direction2

/-- `rotation_matrices_from_vectors(v0, v1)` (rotations3d.py, lines 119–165). -/
noncomputable def rotation_matrices_from_vectors (v0 v1 : List Vec3) : List Mat3 :=
  List.zipWith rotation_matrix_from_vectors v0 v1

/-- The standard basis vector `ex` used by `rotation_matrices_from_basis`. -/
def ex : Vec3 := ⟨1, 0, 0⟩

/-- The standard basis vector `ey` used by `rotation_matrices_from_basis`. -/
def ey : Vec3 := ⟨0, 1, 0⟩

/-- The standard basis vector `ez` used by `rotation_matrices_from_basis`. -/
def ez : Vec3 := ⟨0, 0, 1⟩

/-- Per-index body of `rotation_matrices_from_basis` (rotations3d.py,
lines 168–223): normalize the three supplied basis vectors, then place
`r_RC = elementwise_dot(eR, uC)` at row R, column C. -/
noncomputable def rotation_matrix_from_basis (ux uy uz : Vec3) : Mat3 :=
  let ux2 := normalized3 ux
  let uy2 := normalized3 uy
  let uz2 := normalized3 uz
  ⟨dot3 ex ux2, dot3 ex uy2, dot3 ex uz2,
   dot3 ey ux2, dot3 ey uy2, dot3 ey uz2,
   dot3 ez ux2, dot3 ez uy2, dot3 ez uz2⟩

/-- `rotation_matrices_from_basis(ux, uy, uz)` (rotations3d.py, lines 168–223). -/
noncomputable def rotation_matrices_from_basis :
    List Vec3 → List Vec3 → List Vec3 → List Mat3
  | ux :: tx, uy :: ty, uz :: tz =>
      rotation_matrix_from_basis ux uy uz :: rotation_matrices_from_basis tx ty tz
  | _, _, _ => []

/-- `vectors_between_list_of_vectors(x, y, p)` (rotations3d.py,
lines 226–276).  The two leading `assert` statements (`np.all(p >= 0)` and
`np.all(p <= 1)`) raise AssertionError — the spec's OutOfRange error — before
any computation; otherwise rotate each `x[i]` about the plane normal by
`p[i] * theta[i]` and normalize. -/
noncomputable def vectors_between_list_of_vectors
    (x y : List Vec3) (p : List ℝ) : Except PyErr (List Vec3) :=
  if ¬ (∀ t ∈ p, 0 ≤ t) then Except.error PyErr.outOfRange
  else if ¬ (∀ t ∈ p, t ≤ 1) then Except.error PyErr.outOfRange
  else
    let z := vectors_normal_to_planes x y
    let theta := List.zipWith angle_between x y
    let angles := List.zipWith (fun a b => a * b) p theta
    let ms := rotation_matrices_from_angles angles z
    Except.ok ((rotate_vector_collection ms x).map normalized3)

/-- `project_onto_plane(x1, x2)` (rotations3d.py, lines 312–335).  The body
computes `n = normalized_vectors(x2)` and `d = elementwise_dot(x1, n)` and then
executes `return x - d[:,np.newaxis]*n` — but no name `x` is bound anywhere in
the function or module (the parameter is `x1`), so every call raises NameError
before returning a value. -/
noncomputable def project_onto_plane (x1 x2 : List Vec3) : Except PyErr (List Vec3) :=
  let n := x2.map normalized3
  let d := List.zipWith (fun a b => dot3 a b) x1 n
  Except.error PyErr.nameError

end R3D

/-!  Untyped (list-of-lists) model of numpy arrays, for the parts of the two
source files whose behaviour is shape dispatch: `rotate_vector_collection` of
`rotate_vector_collection.py` (lines 15–92) and of `rotations3d.py`
(lines 54–62).  A vector is its list of float entries; matrices and higher
arrays are nested lists.  numpy arrays are rectangular by construction, so
`np.shape(...)[-1]` is modelled by the length of the first innermost list;
theorems add rectangularity hypotheses where entries beyond the first row
matter. -/

/-- A d-dimensional vector as a plain list of floats (one row of a rank-2
numpy array). -/
abbrev RVec := List ℝ

/-- A matrix as its list of rows (a rank-2 numpy array). -/
abbrev RMat := List RVec

/-- The matrix argument of `rotate_vector_collection`: a rank-2 numpy array
(one matrix) or a rank-3 numpy array (a collection of matrices). -/
inductive NDMats where
  | m2 (M : RMat)
  | m3 (Ms : List RMat)

/-- The vector argument of `rotate_vector_collection`: a rank-2 numpy array
(a collection of vectors) or a rank-3 numpy array (a collection of sets of
vectors). -/
inductive NDVecs where
  | v2 (vs : List RVec)
  | v3 (vss : List (List RVec))

/-- `np.shape(M)[-1]` of a rank-2 array: the (uniform) row length. -/
def rmatLastDim (M : RMat) : ℕ := (M.headD []).length

/-- `np.shape(rotation_matrices)[-1]` (the matrices' column count). -/
def matsLastDim : NDMats → ℕ
  | .m2 M => rmatLastDim M
  | .m3 Ms => rmatLastDim (Ms.headD [])

/-- `np.shape(vectors)[-1]` (the vectors' dimension). -/
def vecsLastDim : NDVecs → ℕ
  | .v2 vs => (vs.headD []).length
  | .v3 vss => ((vss.headD []).headD []).length

/-- Dot product of two equal-length real lists. -/
def dotR (a b : RVec) : ℝ := (List.zipWith (fun s t => s * t) a b).sum

/-- Matrix–vector product on the list representation. -/
def matVecR (M : RMat) (v : RVec) : RVec := M.map (fun row => dotR row v)

/-- `np.dot(M, vs.T).T` for a rank-2 `M` against a stack of row vectors `vs`:
numpy raises ValueError when the contracted dimensions (M's columns against
the vectors' dimension) disagree, else applies `M` to every vector. -/
def npdotT (M : RMat) (vs : List RVec) : Except PyErr (List RVec) :=
  if rmatLastDim M = (vs.headD []).length then Except.ok (vs.map (matVecR M))
  else Except.error PyErr.shapeMismatch

/-- `np.einsum('ijk,ik->ij', Ms, vs)`: the contracted label `k` must have
equal sizes on both operands (numpy additionally broadcasts a size-1
contracted dimension; that corner is not modelled and no theorem below
depends on it); the batch label `i` follows numpy broadcasting — sizes agree,
or the size-1 side is broadcast. -/
def einsum_ijk_ik_ij (Ms : List RMat) (vs : List RVec) : Except PyErr (List RVec) :=
  if rmatLastDim (Ms.headD []) ≠ (vs.headD []).length then Except.error PyErr.shapeMismatch
  else if Ms.length = vs.length then Except.ok (List.zipWith matVecR Ms vs)
  else if Ms.length = 1 then Except.ok (vs.map (matVecR (Ms.headD [])))
  else if vs.length = 1 then Except.ok (Ms.map (fun M => matVecR M (vs.headD [])))
  else Except.error PyErr.shapeMismatch

/-- `np.einsum('ikl,ijl->ijk', Ms, vss)` (one matrix per set of vectors), with
the same broadcasting conventions as `einsum_ijk_ik_ij`. -/
def einsum_ikl_ijl_ijk (Ms : List RMat) (vss : List (List RVec)) :
    Except PyErr (List (List RVec)) :=
  if rmatLastDim (Ms.headD []) ≠ ((vss.headD []).headD []).length then
    Except.error PyErr.shapeMismatch
  else if Ms.length = vss.length then
    Except.ok (List.zipWith (fun M set => set.map (matVecR M)) Ms vss)
  else if Ms.length = 1 then
    Except.ok (vss.map (fun set => set.map (matVecR (Ms.headD []))))
  else if vss.length = 1 then
    Except.ok (Ms.map (fun M => (vss.headD []).map (matVecR M)))
  else Except.error PyErr.shapeMismatch

namespace RVC

/-- `rotate_vector_collection(rotation_matrices, vectors)` of
`rotate_vector_collection.py` (lines 15–92): first
`assert ndim_rotm == ndim_vec` on the innermost dimensions (lines 65–68),
then dispatch — a rank-2 matrix argument, or a rank-3 one of length 1, is
applied to every vector via `np.dot`; otherwise einsum performs index-aligned
application ('ikl,ijl->ijk' for rank-3 vectors, 'ijk,ik->ij' for rank-2). -/
def rotate_vector_collection (rotation_matrices : NDMats) (vectors : NDVecs) :
    Except PyErr NDVecs :=
  if matsLastDim rotation_matrices ≠ vecsLastDim vectors then
    Except.error PyErr.shapeMismatch
  else
    match rotation_matrices, vectors with
    | .m2 M, .v2 vs => Except.map NDVecs.v2 (npdotT M vs)
    | .m2 _, .v3 _ =>
        -- np.dot of a rank-2 matrix with a transposed rank-3 array contracts
        -- unrelated axes; not modelled, no theorem depends on it
        Except.error PyErr.unsupported
    | .m3 Ms, vecs =>
        if Ms.length = 1 then
          match vecs with
          | .v2 vs => Except.map NDVecs.v2 (npdotT (Ms.headD []) vs)
          | .v3 _ => Except.error PyErr.unsupported
        else
          match vecs with
          | .v3 vss => Except.map NDVecs.v3 (einsum_ikl_ijl_ijk Ms vss)
          | .v2 vs => Except.map NDVecs.v2 (einsum_ijk_ik_ij Ms vs)

end RVC

namespace R3Draw

/-- `rotate_vector_collection(rotation_matrices, vectors)` of `rotations3d.py`
(lines 54–62) on raw arrays: if `np.shape(rotation_matrices) == (3, 3)` apply
the single matrix to every vector via `np.dot(rotation_matrices, vectors.T).T`;
otherwise `np.einsum('ijk,ik->ij', ...)`, which raises when the matrix operand
does not have rank 3 or the vector operand does not have rank 2.  (The typed
per-index branch used by the mathematical claims is `R3D.rotate_vector_collection`.) -/
def rotate_vector_collection (rotation_matrices : NDMats) (vectors : NDVecs) :
    Except PyErr NDVecs :=
  match rotation_matrices, vectors with
  | .m2 M, .v2 vs =>
      if M.length = 3 ∧ rmatLastDim M = 3 then Except.map NDVecs.v2 (npdotT M vs)
      else Except.error PyErr.shapeMismatch  -- einsum label 'ijk' against a rank-2 operand
  | .m2 M, .v3 _ =>
      if M.length = 3 ∧ rmatLastDim M = 3 then Except.error PyErr.unsupported
      else Except.error PyErr.shapeMismatch
  | .m3 Ms, .v2 vs => Except.map NDVecs.v2 (einsum_ijk_ik_ij Ms vs)
  | .m3 _, .v3 _ => Except.error PyErr.shapeMismatch  -- einsum label 'ik' against a rank-3 operand

end R3Draw

namespace NFloat

/-- A numpy float64 for NaN tracking: either NaN or a finite real.
Infinities are not modelled: the only division performed by the functions
modelled with these scalars divides a vector componentwise by its euclidean
norm, and that norm vanishes only when every component (every numerator) is
zero, so a zero denominator always means 0/0 = NaN, never ±inf. -/
inductive NF where
  | nan : NF
  | val (x : ℝ) : NF

/-- Float addition: NaN propagates. -/
def add : NF → NF → NF
  | .val a, .val b => .val (a + b)
  | _, _ => .nan

/-- Float subtraction: NaN propagates. -/
def sub : NF → NF → NF
  | .val a, .val b => .val (a - b)
  | _, _ => .nan

/-- Float multiplication: NaN propagates (numpy: `0.0 * nan` is nan). -/
def mul : NF → NF → NF
  | .val a, .val b => .val (a * b)
  | _, _ => .nan

/-- Float negation: NaN propagates. -/
def neg : NF → NF
  | .val a => .val (-a)
  | .nan => .nan

/-- Float division: NaN propagates, and a zero denominator yields NaN
(numpy: `0.0 / 0.0` is nan; a nonzero numerator over zero would be ±inf, but
that case is unreachable here — see the comment on `NF`). -/
noncomputable def div : NF → NF → NF
  | .val a, .val b => if b = 0 then .nan else .val (a / b)
  | _, _ => .nan

/-- Float square root: NaN propagates, and numpy's `np.sqrt` of a negative
float is nan. -/
noncomputable def sqrt : NF → NF
  | .val a => if a < 0 then .nan else .val (Real.sqrt a)
  | .nan => .nan

/-- Float sine: NaN propagates. -/
noncomputable def sinF : NF → NF
  | .val a => .val (Real.sin a)
  | .nan => .nan

/-- Float cosine: NaN propagates. -/
noncomputable def cosF : NF → NF
  | .val a => .val (Real.cos a)
  | .nan => .nan

/-- A 3d vector of NaN-tracking floats. -/
structure NVec3 where
  x : NF
  y : NF
  z : NF

/-- Dot product over NaN-tracking floats. -/
def ndot3 (a b : NVec3) : NF :=
  add (add (mul a.x b.x) (mul a.y b.y)) (mul a.z b.z)

/-- Euclidean norm over NaN-tracking floats. -/
noncomputable def nnorm3 (a : NVec3) : NF := sqrt (ndot3 a a)

/-- Modelled from the spec: `vector_utilities.normalize` on NaN-tracking
floats — "per-index unit vector (undefined/NaN for zero vectors)"; each
component is divided by the norm, and for the zero vector every component
becomes 0/0 = NaN. -/
noncomputable def normalized3 (a : NVec3) : NVec3 :=
  ⟨div a.x (nnorm3 a), div a.y (nnorm3 a), div a.z (nnorm3 a)⟩

/-- A 3×3 matrix of NaN-tracking floats. -/
structure NMat3 where
  m00 : NF
  m01 : NF
  m02 : NF
  m10 : NF
  m11 : NF
  m12 : NF
  m20 : NF
  m21 : NF
  m22 : NF

/-- Entrywise sum over NaN-tracking floats. -/
def nmatAdd3 (A B : NMat3) : NMat3 :=
  ⟨add A.m00 B.m00, add A.m01 B.m01, add A.m02 B.m02,
   add A.m10 B.m10, add A.m11 B.m11, add A.m12 B.m12,
   add A.m20 B.m20, add A.m21 B.m21, add A.m22 B.m22⟩

/-- The `R1` slice of `rotation_matrices_from_angles` on NaN-tracking floats
(`np.zeros` entries are the float `0.0`). -/
def nR1mat (cosa : NF) : NMat3 :=
  ⟨cosa, .val 0, .val 0, .val 0, cosa, .val 0, .val 0, .val 0, cosa⟩

/-- The `R2` slice (outer product of the normalized axis, scaled by
`1 - cosa`) on NaN-tracking floats. -/
def nR2mat (cosa : NF) (k : NVec3) : NMat3 :=
  ⟨mul (sub (.val 1) cosa) (mul k.x k.x), mul (sub (.val 1) cosa) (mul k.x k.y),
   mul (sub (.val 1) cosa) (mul k.x k.z),
   mul (sub (.val 1) cosa) (mul k.y k.x), mul (sub (.val 1) cosa) (mul k.y k.y),
   mul (sub (.val 1) cosa) (mul k.y k.z),
   mul (sub (.val 1) cosa) (mul k.z k.x), mul (sub (.val 1) cosa) (mul k.z k.y),
   mul (sub (.val 1) cosa) (mul k.z k.z)⟩

/-- The `R3` slice (skew part, from `sdir = sina * directions`) on
NaN-tracking floats; the diagonal keeps the float `0.0` of `np.zeros`, the six
off-diagonal entries are `0.0 ∓ sdir` components. -/
def nR3mat (sdir : NVec3) : NMat3 :=
  ⟨.val 0, sub (.val 0) sdir.z, add (.val 0) sdir.y,
   add (.val 0) sdir.z, .val 0, sub (.val 0) sdir.x,
   sub (.val 0) sdir.y, add (.val 0) sdir.x, .val 0⟩

/-- Per-index body of `rotation_matrices_from_angles` on NaN-tracking floats
(same assembly as `R3D.rotation_matrix_from_angle`, with numpy float
semantics for the division inside the normalization). -/
noncomputable def rotation_matrix_from_angle (angle : NF) (direction : NVec3) : NMat3 :=
  let k := normalized3 direction
  let sina := sinF angle
  let cosa := cosF angle
  nmatAdd3 (nmatAdd3 (nR1mat cosa) (nR2mat cosa k))
    (nR3mat ⟨mul sina k.x, mul sina k.y, mul sina k.z⟩)

/-- `rotation_matrices_from_angles` on NaN-tracking floats. -/
noncomputable def rotation_matrices_from_angles
    (angles : List NF) (directions : List NVec3) : List NMat3 :=
  List.zipWith rotation_matrix_from_angle angles directions

/-- The all-NaN 3×3 matrix. -/
def nanMat3 : NMat3 :=
  ⟨.nan, .nan, .nan, .nan, .nan, .nan, .nan, .nan, .nan⟩

end NFloat

/-! ### Basic lemmas about the vector operations -/

lemma dot3_self_nonneg (v : Vec3) : 0 ≤ dot3 v v := by
  unfold dot3
  nlinarith [sq_nonneg v.x, sq_nonneg v.y, sq_nonneg v.z]

lemma dot3_self_pos (v : Vec3) (hv : v ≠ zero3) : 0 < dot3 v v := by
  rcases lt_or_eq_of_le (dot3_self_nonneg v) with h | h
  · exact h
  · exfalso
    apply hv
    have h0 : dot3 v v = 0 := h.symm
    unfold dot3 at h0
    have hx : v.x ^ 2 ≤ 0 := by nlinarith [sq_nonneg v.y, sq_nonneg v.z]
    have hy : v.y ^ 2 ≤ 0 := by nlinarith [sq_nonneg v.x, sq_nonneg v.z]
    have hz : v.z ^ 2 ≤ 0 := by nlinarith [sq_nonneg v.x, sq_nonneg v.y]
    have hx0 : v.x = 0 := by nlinarith [sq_nonneg v.x]
    have hy0 : v.y = 0 := by nlinarith [sq_nonneg v.y]
    have hz0 : v.z = 0 := by nlinarith [sq_nonneg v.z]
    unfold zero3
    ext <;> simp [hx0, hy0, hz0]

lemma norm3_pos (v : Vec3) (hv : v ≠ zero3) : 0 < norm3 v :=
  Real.sqrt_pos.mpr (dot3_self_pos v hv)

lemma sq_norm3 (v : Vec3) : norm3 v ^ 2 = dot3 v v :=
  Real.sq_sqrt (dot3_self_nonneg v)

lemma dot3_normalized_self (v : Vec3) (hv : v ≠ zero3) :
    dot3 (normalized3 v) (normalized3 v) = 1 := by
  have hn := norm3_pos v hv
  have hs := sq_norm3 v
  unfold normalized3 dot3
  field_simp
  unfold dot3 at hs
  linear_combination -hs

lemma norm3_of_unit (v : Vec3) (hv : dot3 v v = 1) : norm3 v = 1 := by
  unfold norm3
  rw [hv, Real.sqrt_one]

lemma normalized3_of_unit (v : Vec3) (hv : dot3 v v = 1) : normalized3 v = v := by
  unfold normalized3
  rw [norm3_of_unit v hv]
  ext <;> simp

/-! ### The Rodrigues assembly is orthonormal with determinant one -/

lemma rodrigues_orthonormal (c s : ℝ) (k : Vec3)
    (hk : dot3 k k = 1) (hcs : s ^ 2 + c ^ 2 = 1) :
    matMul3 (transpose3 (R3D.rodrigues c s k)) (R3D.rodrigues c s k) = I3 := by
  obtain ⟨p, q, r⟩ := k
  unfold dot3 at hk
  simp only at hk
  unfold R3D.rodrigues matAdd3 R3D.R1mat R3D.R2mat R3D.R3mat smul3 transpose3 matMul3 I3
  simp only [Mat3.mk.injEq]
  refine ⟨?_, ?_, ?_, ?_, ?_, ?_, ?_, ?_, ?_⟩
  · linear_combination ((1 - c) ^ 2 * p ^ 2 + s ^ 2) * hk + (1 - p ^ 2) * hcs
  · linear_combination (p * q * (1 - c) ^ 2) * hk - (p * q) * hcs
  · linear_combination (p * r * (1 - c) ^ 2) * hk - (p * r) * hcs
  · linear_combination (p * q * (1 - c) ^ 2) * hk - (p * q) * hcs
  · linear_combination ((1 - c) ^ 2 * q ^ 2 + s ^ 2) * hk + (1 - q ^ 2) * hcs
  · linear_combination (q * r * (1 - c) ^ 2) * hk - (q * r) * hcs
  · linear_combination (p * r * (1 - c) ^ 2) * hk - (p * r) * hcs
  · linear_combination (q * r * (1 - c) ^ 2) * hk - (q * r) * hcs
  · linear_combination ((1 - c) ^ 2 * r ^ 2 + s ^ 2) * hk + (1 - r ^ 2) * hcs

lemma rodrigues_det (c s : ℝ) (k : Vec3)
    (hk : dot3 k k = 1) (hcs : s ^ 2 + c ^ 2 = 1) :
    det3 (R3D.rodrigues c s k) = 1 := by
  obtain ⟨p, q, r⟩ := k
  unfold dot3 at hk
  simp only at hk
  unfold R3D.rodrigues matAdd3 R3D.R1mat R3D.R2mat R3D.R3mat smul3 det3
  simp only
  linear_combination ((c ^ 2 + s ^ 2 * (p * p + q * q + r * r)) * (1 - c) + s ^ 2) * hk + hcs

/-! ### Claims C3 and C4 -/

lemma rotation_matrix_from_angle_decomp (a : ℝ) (v : Vec3) :
    R3D.rotation_matrix_from_angle a v =
      matAdd3 (matAdd3 (smulMat3 (Real.cos a) I3)
          (smulMat3 (1 - Real.cos a) (outer3 (normalized3 v) (normalized3 v))))
        (smulMat3 (Real.sin a) (skew3 (normalized3 v))) := by
  unfold R3D.rotation_matrix_from_angle R3D.rodrigues matAdd3 R3D.R1mat R3D.R2mat
    R3D.R3mat smul3 smulMat3 outer3 skew3 I3
  ext <;> (simp only; ring)

/-- C3: at every index, `rotation_matrices_from_angles` returns
`cos a · I + (1 − cos a) · k kᵀ + sin a · K(k)` for the unit axis
`k = normalized3 v`; the skew term acts on any vector `w` as
`sin a · (k × w)`, and for the canonical axis `ez` a positive angle rotates
`ex` towards `ey` (right-hand convention): the image of `ex` is
`(cos a, sin a, 0)`. -/
theorem rotation_matrices_from_angles_spec (angles : List ℝ) (directions : List Vec3)
    (i : ℕ) (a : ℝ) (v w : Vec3)
    (ha : angles[i]? = some a) (hv : directions[i]? = some v) (hvz : v ≠ zero3) :
    (R3D.rotation_matrices_from_angles angles directions)[i]? =
      some (matAdd3 (matAdd3 (smulMat3 (Real.cos a) I3)
          (smulMat3 (1 - Real.cos a) (outer3 (normalized3 v) (normalized3 v))))
        (smulMat3 (Real.sin a) (skew3 (normalized3 v)))) ∧
    matVec3 (smulMat3 (Real.sin a) (skew3 (normalized3 v))) w =
      smul3 (Real.sin a) (cross3 (normalized3 v) w) ∧
    matVec3 (R3D.rotation_matrix_from_angle a R3D.ez) R3D.ex =
      ⟨Real.cos a, Real.sin a, 0⟩ := by
  refine ⟨?_, ?_, ?_⟩
  · unfold R3D.rotation_matrices_from_angles
    rw [List.getElem?_zipWith_eq_some]
    exact ⟨a, v, ha, hv, rotation_matrix_from_angle_decomp a v⟩
  · unfold matVec3 smulMat3 skew3 smul3 cross3
    ext <;> (simp only; ring)
  · have hez : normalized3 R3D.ez = R3D.ez := by
      apply normalized3_of_unit
      unfold dot3 R3D.ez
      norm_num
    unfold R3D.rotation_matrix_from_angle
    rw [hez]
    unfold R3D.rodrigues matAdd3 R3D.R1mat R3D.R2mat R3D.R3mat smul3 matVec3 R3D.ez R3D.ex
    ext <;> (simp only; ring)

/-- Witness for `rotation_matrices_from_angles_spec` at angle 0 and axis `ez`. -/
theorem rotation_matrices_from_angles_spec_witness :
    ([(0 : ℝ)][0]? = some 0) ∧ ([R3D.ez][0]? = some R3D.ez) ∧ R3D.ez ≠ zero3 ∧
    ((R3D.rotation_matrices_from_angles [0] [R3D.ez])[0]? =
      some (matAdd3 (matAdd3 (smulMat3 (Real.cos 0) I3)
          (smulMat3 (1 - Real.cos 0) (outer3 (normalized3 R3D.ez) (normalized3 R3D.ez))))
        (smulMat3 (Real.sin 0) (skew3 (normalized3 R3D.ez)))) ∧
      matVec3 (smulMat3 (Real.sin 0) (skew3 (normalized3 R3D.ez))) R3D.ex =
        smul3 (Real.sin 0) (cross3 (normalized3 R3D.ez) R3D.ex) ∧
      matVec3 (R3D.rotation_matrix_from_angle 0 R3D.ez) R3D.ex =
        ⟨Real.cos 0, Real.sin 0, 0⟩) := by
  have hez : R3D.ez ≠ zero3 := by
    intro h
    have := congrArg Vec3.z h
    unfold R3D.ez zero3 at this
    norm_num at this
  exact ⟨rfl, rfl, hez,
    rotation_matrices_from_angles_spec [0] [R3D.ez] 0 0 R3D.ez R3D.ex rfl rfl hez⟩

/-- C4: every matrix produced by `rotation_matrices_from_angles` from any
angle and any nonzero axis is orthonormal (`Mᵀ·M = I`) and has determinant 1
(exactly, in the real-arithmetic model of the float computation). -/
theorem rotation_matrices_from_angles_orthonormal (angles : List ℝ)
    (directions : List Vec3) (i : ℕ) (a : ℝ) (v : Vec3) (M : Mat3)
    (ha : angles[i]? = some a) (hv : directions[i]? = some v) (hvz : v ≠ zero3)
    (hM : (R3D.rotation_matrices_from_angles angles directions)[i]? = some M) :
    matMul3 (transpose3 M) M = I3 ∧ det3 M = 1 := by
  unfold R3D.rotation_matrices_from_angles at hM
  rw [List.getElem?_zipWith_eq_some] at hM
  obtain ⟨a2, v2, ha2, hv2, hMeq⟩ := hM
  rw [ha] at ha2
  rw [hv] at hv2
  cases ha2
  cases hv2
  subst hMeq
  have hk : dot3 (normalized3 v) (normalized3 v) = 1 := dot3_normalized_self v hvz
  have hcs : Real.sin a ^ 2 + Real.cos a ^ 2 = 1 := Real.sin_sq_add_cos_sq a
  exact ⟨rodrigues_orthonormal _ _ _ hk hcs, rodrigues_det _ _ _ hk hcs⟩

/-- Witness for `rotation_matrices_from_angles_orthonormal` at angle 0,
axis `ez`. -/
theorem rotation_matrices_from_angles_orthonormal_witness :
    ([(0 : ℝ)][0]? = some 0) ∧ ([R3D.ez][0]? = some R3D.ez) ∧ R3D.ez ≠ zero3 ∧
    ((R3D.rotation_matrices_from_angles [0] [R3D.ez])[0]? =
      some (R3D.rotation_matrix_from_angle 0 R3D.ez)) ∧
    (matMul3 (transpose3 (R3D.rotation_matrix_from_angle 0 R3D.ez))
        (R3D.rotation_matrix_from_angle 0 R3D.ez) = I3 ∧
      det3 (R3D.rotation_matrix_from_angle 0 R3D.ez) = 1) := by
  have hez : R3D.ez ≠ zero3 := by
    intro h
    have := congrArg Vec3.z h
    unfold R3D.ez zero3 at this
    norm_num at this
  exact ⟨rfl, rfl, hez, rfl,
    rotation_matrices_from_angles_orthonormal [0] [R3D.ez] 0 0 R3D.ez _ rfl rfl hez rfl⟩

/-! ### Claim C9: rotation matrices from an orthonormal basis -/

lemma rotation_matrices_from_basis_getElem? :
    ∀ (ux uy uz : List Vec3) (i : ℕ) (a b c : Vec3),
      ux[i]? = some a → uy[i]? = some b → uz[i]? = some c →
      (R3D.rotation_matrices_from_basis ux uy uz)[i]? =
        some (R3D.rotation_matrix_from_basis a b c) := by
  intro ux
  induction ux with
  | nil => intro uy uz i a b c ha _ _; simp at ha
  | cons hx tx ih =>
    intro uy uz i a b c ha hb hc
    cases uy with
    | nil => simp at hb
    | cons hy ty =>
      cases uz with
      | nil => simp at hc
      | cons hz tz =>
        cases i with
        | zero =>
          simp only [List.getElem?_cons_zero, Option.some.injEq] at ha hb hc
          subst ha
          subst hb
          subst hc
          simp [R3D.rotation_matrices_from_basis]
        | succ n =>
          simp only [List.getElem?_cons_succ] at ha hb hc
          simpa [R3D.rotation_matrices_from_basis] using ih ty tz n a b c ha hb hc

/-- C9: for index-aligned collections forming a right-handed orthonormal frame
per index, `rotation_matrices_from_basis` returns at each index the 3×3 matrix
whose (r, c) entry is the dot product of the r-th standard basis vector with
the c-th supplied basis vector. -/
theorem rotation_matrices_from_basis_spec (ux uy uz : List Vec3) (i : ℕ)
    (a b c : Vec3)
    (ha : ux[i]? = some a) (hb : uy[i]? = some b) (hc : uz[i]? = some c)
    (hua : dot3 a a = 1) (hub : dot3 b b = 1) (huc : dot3 c c = 1)
    (hab : dot3 a b = 0) (hac : dot3 a c = 0) (hbc : dot3 b c = 0)
    (hrh : cross3 a b = c) :
    (R3D.rotation_matrices_from_basis ux uy uz)[i]? =
      some ⟨dot3 R3D.ex a, dot3 R3D.ex b, dot3 R3D.ex c,
            dot3 R3D.ey a, dot3 R3D.ey b, dot3 R3D.ey c,
            dot3 R3D.ez a, dot3 R3D.ez b, dot3 R3D.ez c⟩ := by
  rw [rotation_matrices_from_basis_getElem? ux uy uz i a b c ha hb hc]
  unfold R3D.rotation_matrix_from_basis
  rw [normalized3_of_unit a hua, normalized3_of_unit b hub, normalized3_of_unit c huc]

/-- Witness for `rotation_matrices_from_basis_spec` at the standard frame. -/
theorem rotation_matrices_from_basis_spec_witness :
    ([R3D.ex][0]? = some R3D.ex) ∧ ([R3D.ey][0]? = some R3D.ey) ∧
    ([R3D.ez][0]? = some R3D.ez) ∧
    dot3 R3D.ex R3D.ex = 1 ∧ dot3 R3D.ey R3D.ey = 1 ∧ dot3 R3D.ez R3D.ez = 1 ∧
    dot3 R3D.ex R3D.ey = 0 ∧ dot3 R3D.ex R3D.ez = 0 ∧ dot3 R3D.ey R3D.ez = 0 ∧
    cross3 R3D.ex R3D.ey = R3D.ez ∧
    (R3D.rotation_matrices_from_basis [R3D.ex] [R3D.ey] [R3D.ez])[0]? =
      some ⟨dot3 R3D.ex R3D.ex, dot3 R3D.ex R3D.ey, dot3 R3D.ex R3D.ez,
            dot3 R3D.ey R3D.ex, dot3 R3D.ey R3D.ey, dot3 R3D.ey R3D.ez,
            dot3 R3D.ez R3D.ex, dot3 R3D.ez R3D.ey, dot3 R3D.ez R3D.ez⟩ := by
  have h1 : dot3 R3D.ex R3D.ex = 1 := by norm_num [dot3, R3D.ex]
  have h2 : dot3 R3D.ey R3D.ey = 1 := by norm_num [dot3, R3D.ey]
  have h3 : dot3 R3D.ez R3D.ez = 1 := by norm_num [dot3, R3D.ez]
  have h4 : dot3 R3D.ex R3D.ey = 0 := by norm_num [dot3, R3D.ex, R3D.ey]
  have h5 : dot3 R3D.ex R3D.ez = 0 := by norm_num [dot3, R3D.ex, R3D.ez]
  have h6 : dot3 R3D.ey R3D.ez = 0 := by norm_num [dot3, R3D.ey, R3D.ez]
  have h7 : cross3 R3D.ex R3D.ey = R3D.ez := by
    unfold cross3 R3D.ex R3D.ey R3D.ez
    ext <;> norm_num
  exact ⟨rfl, rfl, rfl, h1, h2, h3, h4, h5, h6, h7,
    rotation_matrices_from_basis_spec [R3D.ex] [R3D.ey] [R3D.ez] 0
      R3D.ex R3D.ey R3D.ez rfl rfl rfl h1 h2 h3 h4 h5 h6 h7⟩

/-! ### Claim C8: out-of-range interpolation fraction -/

/-- C8: whenever some interpolation fraction lies outside [0, 1],
`vectors_between_list_of_vectors` fails with the OutOfRange error (one of its
two leading assertions) and returns no vectors. -/
theorem vectors_between_out_of_range (x y : List Vec3) (p : List ℝ) (t : ℝ)
    (ht : t ∈ p) (hout : t < 0 ∨ 1 < t) :
    R3D.vectors_between_list_of_vectors x y p = Except.error PyErr.outOfRange := by
  unfold R3D.vectors_between_list_of_vectors
  rcases hout with h | h
  · rw [if_pos]
    push_neg
    exact ⟨t, ht, by linarith⟩
  · by_cases hA : ∀ s ∈ p, 0 ≤ s
    · rw [if_neg (not_not_intro hA), if_pos]
      push_neg
      exact ⟨t, ht, by linarith⟩
    · rw [if_pos hA]

/-- Witness for `vectors_between_out_of_range` at p = [3/2]. -/
theorem vectors_between_out_of_range_witness :
    ((3 / 2 : ℝ) ∈ [(3 / 2 : ℝ)]) ∧ ((3 / 2 : ℝ) < 0 ∨ 1 < (3 / 2 : ℝ)) ∧
    R3D.vectors_between_list_of_vectors [R3D.ex] [R3D.ey] [(3 / 2 : ℝ)] =
      Except.error PyErr.outOfRange := by
  have ht : (3 / 2 : ℝ) ∈ [(3 / 2 : ℝ)] := List.mem_singleton.mpr rfl
  have hout : (3 / 2 : ℝ) < 0 ∨ 1 < (3 / 2 : ℝ) := Or.inr (by norm_num)
  exact ⟨ht, hout, vectors_between_out_of_range [R3D.ex] [R3D.ey] _ _ ht hout⟩

/-! ### Claim C2: project_onto_plane raises NameError -/

/-- C2 (code bug): `project_onto_plane` never returns a value — its return
statement reads the unbound name `x` (the parameter is `x1`), so the call
raises NameError; here evaluated at the concrete input
x1 = [(1,0,0)], x2 = [(0,0,1)]. -/
theorem project_onto_plane_raises :
    R3D.project_onto_plane [⟨1, 0, 0⟩] [⟨0, 0, 1⟩] = Except.error PyErr.nameError := rfl

/-! ### Claim C7: a zero axis propagates NaN through the whole matrix -/

lemma nf_normalized3_zero :
    NFloat.normalized3 ⟨.val 0, .val 0, .val 0⟩ = ⟨.nan, .nan, .nan⟩ := by
  unfold NFloat.normalized3 NFloat.nnorm3 NFloat.ndot3
  simp [NFloat.mul, NFloat.add, NFloat.sqrt, NFloat.div, Real.sqrt_zero]

lemma nf_rotation_matrix_from_angle_zero_axis (a : NFloat.NF) :
    NFloat.rotation_matrix_from_angle a ⟨.val 0, .val 0, .val 0⟩ = NFloat.nanMat3 := by
  unfold NFloat.rotation_matrix_from_angle
  rw [nf_normalized3_zero]
  cases a with
  | nan =>
      simp [NFloat.nmatAdd3, NFloat.nR1mat, NFloat.nR2mat, NFloat.nR3mat,
        NFloat.sinF, NFloat.cosF, NFloat.add, NFloat.sub, NFloat.mul, NFloat.nanMat3]
  | val x =>
      simp [NFloat.nmatAdd3, NFloat.nR1mat, NFloat.nR2mat, NFloat.nR3mat,
        NFloat.sinF, NFloat.cosF, NFloat.add, NFloat.sub, NFloat.mul, NFloat.nanMat3]

/-- C7: when the axis at index i is the zero vector, the matrix returned at
that index by `rotation_matrices_from_angles` (numpy float semantics) is the
all-NaN matrix — NaN is propagated, never a silently finite wrong matrix. -/
theorem rotation_matrices_from_angles_zero_axis (angles : List NFloat.NF)
    (directions : List NFloat.NVec3) (i : ℕ) (a : NFloat.NF)
    (ha : angles[i]? = some a)
    (hv : directions[i]? = some ⟨.val 0, .val 0, .val 0⟩) :
    (NFloat.rotation_matrices_from_angles angles directions)[i]? =
      some NFloat.nanMat3 ∧ NFloat.nanMat3.m00 = NFloat.NF.nan := by
  constructor
  · unfold NFloat.rotation_matrices_from_angles
    rw [List.getElem?_zipWith_eq_some]
    exact ⟨a, _, ha, hv, nf_rotation_matrix_from_angle_zero_axis a⟩
  · rfl

/-- Witness for `rotation_matrices_from_angles_zero_axis` at angle 0. -/
theorem rotation_matrices_from_angles_zero_axis_witness :
    ([NFloat.NF.val 0][0]? = some (NFloat.NF.val 0)) ∧
    ([(⟨.val 0, .val 0, .val 0⟩ : NFloat.NVec3)][0]? =
      some (⟨.val 0, .val 0, .val 0⟩ : NFloat.NVec3)) ∧
    ((NFloat.rotation_matrices_from_angles [NFloat.NF.val 0]
        [(⟨.val 0, .val 0, .val 0⟩ : NFloat.NVec3)])[0]? =
      some NFloat.nanMat3 ∧ NFloat.nanMat3.m00 = NFloat.NF.nan) :=
  ⟨rfl, rfl, rotation_matrices_from_angles_zero_axis [NFloat.NF.val 0]
    [(⟨.val 0, .val 0, .val 0⟩ : NFloat.NVec3)] 0 (NFloat.NF.val 0) rfl rfl⟩

/-! ### Claim C6: mismatched innermost dimensions fail with ShapeMismatch -/

/-- C6: whenever the innermost dimension of the matrix argument (its column
count) differs from the innermost dimension of the vector argument,
`rotate_vector_collection` (rotate_vector_collection.py) fails with the
ShapeMismatch error (its leading `assert ndim_rotm == ndim_vec`) and returns
no numeric result. -/
theorem rotate_vector_collection_shape_mismatch (Ms : NDMats) (vs : NDVecs)
    (h : matsLastDim Ms ≠ vecsLastDim vs) :
    RVC.rotate_vector_collection Ms vs = Except.error PyErr.shapeMismatch := by
  unfold RVC.rotate_vector_collection
  rw [if_pos h]

/-- Witness for `rotate_vector_collection_shape_mismatch`: 3×3 matrix against
4-dimensional vectors. -/
theorem rotate_vector_collection_shape_mismatch_witness :
    (matsLastDim (.m2 [[1, 0, 0], [0, 1, 0], [0, 0, 1]]) ≠
      vecsLastDim (.v2 [[1, 0, 0, 0]])) ∧
    RVC.rotate_vector_collection (.m2 [[1, 0, 0], [0, 1, 0], [0, 0, 1]])
      (.v2 [[1, 0, 0, 0]]) = Except.error PyErr.shapeMismatch := by
  have h : matsLastDim (.m2 [[1, 0, 0], [0, 1, 0], [0, 0, 1]]) ≠
      vecsLastDim (.v2 [[1, 0, 0, 0]]) := by
    simp [matsLastDim, vecsLastDim, rmatLastDim]
  exact ⟨h, rotate_vector_collection_shape_mismatch _ _ h⟩

/-! ### Claim C5: a single matrix (rank 2, or a length-1 collection) is
broadcast over all vectors -/

lemma rmatLastDim_eq (M : RMat) (d : ℕ) (hM : M.length = d)
    (hMr : ∀ r ∈ M, r.length = d) : rmatLastDim M = d := by
  cases M with
  | nil =>
      simp only [List.length_nil] at hM
      simp [rmatLastDim, ← hM]
  | cons r t => exact hMr r (List.mem_cons_self r t)

lemma npdotT_ok_of_dim (M : RMat) (vss : List RVec) (d : ℕ)
    (hdim : rmatLastDim M = d) (hvh : (vss.headD []).length = d) :
    npdotT M vss = Except.ok (vss.map (matVecR M)) := by
  unfold npdotT
  rw [if_pos (by rw [hdim, hvh])]

lemma rvc_m2_ok (M : RMat) (vss : List RVec) (d : ℕ)
    (hdim : rmatLastDim M = d) (hvh : (vss.headD []).length = d) :
    RVC.rotate_vector_collection (.m2 M) (.v2 vss) =
      Except.ok (.v2 (vss.map (matVecR M))) := by
  have hcond : matsLastDim (NDMats.m2 M) = vecsLastDim (NDVecs.v2 vss) := by
    show rmatLastDim M = (vss.headD []).length
    rw [hdim, hvh]
  unfold RVC.rotate_vector_collection
  rw [if_neg (not_not_intro hcond)]
  show Except.map NDVecs.v2 (npdotT M vss) = _
  rw [npdotT_ok_of_dim M vss d hdim hvh]
  rfl

lemma rvc_m3_single_ok (M : RMat) (vss : List RVec) (d : ℕ)
    (hdim : rmatLastDim M = d) (hvh : (vss.headD []).length = d) :
    RVC.rotate_vector_collection (.m3 [M]) (.v2 vss) =
      Except.ok (.v2 (vss.map (matVecR M))) := by
  have hcond : matsLastDim (NDMats.m3 [M]) = vecsLastDim (NDVecs.v2 vss) := by
    show rmatLastDim ([M].headD []) = (vss.headD []).length
    show rmatLastDim M = (vss.headD []).length
    rw [hdim, hvh]
  unfold RVC.rotate_vector_collection
  rw [if_neg (not_not_intro hcond)]
  show Except.map NDVecs.v2 (npdotT ([M].headD []) vss) = _
  show Except.map NDVecs.v2 (npdotT M vss) = _
  rw [npdotT_ok_of_dim M vss d hdim hvh]
  rfl

/-- C5: `rotate_vector_collection` (rotate_vector_collection.py) applied to a
single d×d matrix — passed either as a rank-2 array or as a length-1
collection — and a collection of d-dimensional vectors applies that one
matrix to every vector: the result is the map of `matVecR M`, and its i-th
element is `M · v` for the i-th input vector `v`. -/
theorem rotate_vector_collection_single_matrix (d : ℕ) (M : RMat)
    (vss : List RVec) (i : ℕ) (v : RVec)
    (hM : M.length = d) (hMr : ∀ r ∈ M, r.length = d)
    (hvh : (vss.headD []).length = d) (hv : ∀ w ∈ vss, w.length = d)
    (hvi : vss[i]? = some v) :
    RVC.rotate_vector_collection (.m2 M) (.v2 vss) =
      Except.ok (.v2 (vss.map (matVecR M))) ∧
    RVC.rotate_vector_collection (.m3 [M]) (.v2 vss) =
      Except.ok (.v2 (vss.map (matVecR M))) ∧
    (vss.map (matVecR M))[i]? = some (matVecR M v) := by
  have hdim : rmatLastDim M = d := rmatLastDim_eq M d hM hMr
  refine ⟨rvc_m2_ok M vss d hdim hvh, rvc_m3_single_ok M vss d hdim hvh, ?_⟩
  rw [List.getElem?_map, hvi]
  rfl

/-- Witness for `rotate_vector_collection_single_matrix` with a 2×2 matrix
and two 2-dimensional vectors. -/
theorem rotate_vector_collection_single_matrix_witness :
    (([[1, 2], [3, 4]] : RMat).length = 2) ∧
    (∀ r ∈ ([[1, 2], [3, 4]] : RMat), r.length = 2) ∧
    ((([[5, 6], [7, 8]] : List RVec).headD []).length = 2) ∧
    (∀ w ∈ ([[5, 6], [7, 8]] : List RVec), w.length = 2) ∧
    (([[5, 6], [7, 8]] : List RVec)[0]? = some [5, 6]) ∧
    (RVC.rotate_vector_collection (.m2 [[1, 2], [3, 4]]) (.v2 [[5, 6], [7, 8]]) =
        Except.ok (.v2 (([[5, 6], [7, 8]] : List RVec).map
          (matVecR [[1, 2], [3, 4]]))) ∧
      RVC.rotate_vector_collection (.m3 [[[1, 2], [3, 4]]]) (.v2 [[5, 6], [7, 8]]) =
        Except.ok (.v2 (([[5, 6], [7, 8]] : List RVec).map
          (matVecR [[1, 2], [3, 4]]))) ∧
      (([[5, 6], [7, 8]] : List RVec).map (matVecR [[1, 2], [3, 4]]))[0]? =
        some (matVecR [[1, 2], [3, 4]] [5, 6])) := by
  have h1 : ([[1, 2], [3, 4]] : RMat).length = 2 := rfl
  have h2 : ∀ r ∈ ([[1, 2], [3, 4]] : RMat), r.length = 2 := by
    intro r hr
    simp only [List.mem_cons, List.not_mem_nil, or_false] at hr
    rcases hr with rfl | rfl <;> rfl
  have h3 : ((([[5, 6], [7, 8]] : List RVec)).headD []).length = 2 := rfl
  have h4 : ∀ w ∈ ([[5, 6], [7, 8]] : List RVec), w.length = 2 := by
    intro w hw
    simp only [List.mem_cons, List.not_mem_nil, or_false] at hw
    rcases hw with rfl | rfl <;> rfl
  have h5 : ([[5, 6], [7, 8]] : List RVec)[0]? = some [5, 6] := rfl
  exact ⟨h1, h2, h3, h4, h5,
    rotate_vector_collection_single_matrix 2 [[1, 2], [3, 4]] [[5, 6], [7, 8]]
      0 [5, 6] h1 h2 h3 h4 h5⟩

/-! ### Claim C10: the two implementations of rotate_vector_collection agree -/

lemma exceptMap_v2_ok {e : Except PyErr (List RVec)} {o : NDVecs} :
    Except.map NDVecs.v2 e = Except.ok o ↔
      ∃ l, e = Except.ok l ∧ o = NDVecs.v2 l := by
  cases e with
  | error err =>
      constructor
      · intro h
        simp [Except.map] at h
      · rintro ⟨l, hl, _⟩
        simp at hl
  | ok x =>
      constructor
      · intro h
        refine ⟨x, rfl, ?_⟩
        simp [Except.map] at h
        exact h.symm
      · rintro ⟨l, hl, ho⟩
        simp only [Except.ok.injEq] at hl
        subst hl
        subst ho
        rfl

lemma npdotT_ok_elim {M : RMat} {vss : List RVec} {l : List RVec}
    (h : npdotT M vss = Except.ok l) :
    rmatLastDim M = (vss.headD []).length ∧ l = vss.map (matVecR M) := by
  unfold npdotT at h
  by_cases hc : rmatLastDim M = (vss.headD []).length
  · rw [if_pos hc] at h
    simp only [Except.ok.injEq] at h
    exact ⟨hc, h.symm⟩
  · rw [if_neg hc] at h
    simp at h

lemma einsum_ok_dim {Ms : List RMat} {vss : List RVec} {l : List RVec}
    (h : einsum_ijk_ik_ij Ms vss = Except.ok l) :
    rmatLastDim (Ms.headD []) = (vss.headD []).length := by
  unfold einsum_ijk_ik_ij at h
  by_cases hc : rmatLastDim (Ms.headD []) ≠ (vss.headD []).length
  · rw [if_pos hc] at h
    simp at h
  · exact not_not.mp hc

lemma einsum_aligned {Ms : List RMat} {vss : List RVec}
    (hk : rmatLastDim (Ms.headD []) = (vss.headD []).length)
    (hlen : Ms.length = vss.length) :
    einsum_ijk_ik_ij Ms vss = Except.ok (List.zipWith matVecR Ms vss) := by
  unfold einsum_ijk_ik_ij
  rw [if_neg (not_not_intro hk), if_pos hlen]

lemma einsum_len1 {M : RMat} {vss : List RVec}
    (hk : rmatLastDim M = (vss.headD []).length) :
    einsum_ijk_ik_ij [M] vss = Except.ok (vss.map (matVecR M)) := by
  by_cases hv : [M].length = vss.length
  · obtain ⟨v, rfl⟩ : ∃ v, vss = [v] := by
      cases vss with
      | nil => simp at hv
      | cons a t =>
          cases t with
          | nil => exact ⟨a, rfl⟩
          | cons b t2 => simp at hv
    unfold einsum_ijk_ik_ij
    rw [if_neg (not_not_intro (by simpa using hk)), if_pos hv]
    rfl
  · unfold einsum_ijk_ik_ij
    rw [if_neg (not_not_intro (by simpa using hk)), if_neg hv,
      if_pos (List.length_singleton M)]
    rfl

/-- C10: the 3d-specialized `rotate_vector_collection` of rotations3d.py and
the n-dimensional one of rotate_vector_collection.py agree on every input on
which both succeed (first conjunct), and both succeed — with the same value —
on a single 3×3 matrix with a collection of 3-dimensional vectors, on a
length-1 collection containing that matrix, and on index-aligned collections
of n matrices and n vectors (remaining conjuncts). -/
theorem rotate_vector_collection_impls_agree :
    (∀ (Ms : NDMats) (vs : NDVecs) (o1 o2 : NDVecs),
        R3Draw.rotate_vector_collection Ms vs = Except.ok o1 →
        RVC.rotate_vector_collection Ms vs = Except.ok o2 → o1 = o2) ∧
    (∀ (M : RMat) (vss : List RVec), M.length = 3 → (∀ r ∈ M, r.length = 3) →
        (vss.headD []).length = 3 →
        R3Draw.rotate_vector_collection (.m2 M) (.v2 vss) =
          Except.ok (.v2 (vss.map (matVecR M))) ∧
        RVC.rotate_vector_collection (.m2 M) (.v2 vss) =
          Except.ok (.v2 (vss.map (matVecR M)))) ∧
    (∀ (M : RMat) (vss : List RVec), M.length = 3 → (∀ r ∈ M, r.length = 3) →
        (vss.headD []).length = 3 →
        R3Draw.rotate_vector_collection (.m3 [M]) (.v2 vss) =
          Except.ok (.v2 (vss.map (matVecR M))) ∧
        RVC.rotate_vector_collection (.m3 [M]) (.v2 vss) =
          Except.ok (.v2 (vss.map (matVecR M)))) ∧
    (∀ (Ms : List RMat) (vss : List RVec), Ms.length = vss.length →
        (∀ M ∈ Ms, rmatLastDim M = 3) → (∀ v ∈ vss, v.length = 3) →
        ∃ o, R3Draw.rotate_vector_collection (.m3 Ms) (.v2 vss) = Except.ok o ∧
          RVC.rotate_vector_collection (.m3 Ms) (.v2 vss) = Except.ok o) := by
  refine ⟨?_, ?_, ?_, ?_⟩
  · intro Ms vs o1 o2 h1 h2
    cases Ms with
    | m2 M =>
        cases vs with
        | v2 vss =>
            by_cases hs : M.length = 3 ∧ rmatLastDim M = 3
            · have h1b : Except.map NDVecs.v2 (npdotT M vss) = Except.ok o1 := by
                have h1c : (if M.length = 3 ∧ rmatLastDim M = 3 then
                    Except.map NDVecs.v2 (npdotT M vss)
                    else Except.error PyErr.shapeMismatch) = Except.ok o1 := h1
                rwa [if_pos hs] at h1c
              rw [exceptMap_v2_ok] at h1b
              obtain ⟨l, hl, rfl⟩ := h1b
              obtain ⟨hk, rfl⟩ := npdotT_ok_elim hl
              have hguard : matsLastDim (NDMats.m2 M) = vecsLastDim (NDVecs.v2 vss) := hk
              unfold RVC.rotate_vector_collection at h2
              rw [if_neg (not_not_intro hguard)] at h2
              have h2b : Except.map NDVecs.v2 (npdotT M vss) = Except.ok o2 := h2
              rw [exceptMap_v2_ok] at h2b
              obtain ⟨l2, hl2, rfl⟩ := h2b
              obtain ⟨_, rfl⟩ := npdotT_ok_elim hl2
              rfl
            · have h1c : (if M.length = 3 ∧ rmatLastDim M = 3 then
                  Except.map NDVecs.v2 (npdotT M vss)
                  else Except.error PyErr.shapeMismatch) = Except.ok o1 := h1
              rw [if_neg hs] at h1c
              simp at h1c
        | v3 vsss =>
            by_cases hs : M.length = 3 ∧ rmatLastDim M = 3
            · have h1c : (if M.length = 3 ∧ rmatLastDim M = 3 then
                  (Except.error PyErr.unsupported : Except PyErr NDVecs)
                  else Except.error PyErr.shapeMismatch) = Except.ok o1 := h1
              rw [if_pos hs] at h1c
              simp at h1c
            · have h1c : (if M.length = 3 ∧ rmatLastDim M = 3 then
                  (Except.error PyErr.unsupported : Except PyErr NDVecs)
                  else Except.error PyErr.shapeMismatch) = Except.ok o1 := h1
              rw [if_neg hs] at h1c
              simp at h1c
    | m3 Ms =>
        cases vs with
        | v3 vsss => simp [R3Draw.rotate_vector_collection] at h1
        | v2 vss =>
            have h1b : Except.map NDVecs.v2 (einsum_ijk_ik_ij Ms vss) =
                Except.ok o1 := h1
            rw [exceptMap_v2_ok] at h1b
            obtain ⟨l, hl, rfl⟩ := h1b
            have hk := einsum_ok_dim hl
            have hguard : matsLastDim (NDMats.m3 Ms) = vecsLastDim (NDVecs.v2 vss) := hk
            unfold RVC.rotate_vector_collection at h2
            rw [if_neg (not_not_intro hguard)] at h2
            by_cases hlen : Ms.length = 1
            · obtain ⟨M, rfl⟩ := List.length_eq_one.mp hlen
              have h2b : Except.map NDVecs.v2 (npdotT M vss) = Except.ok o2 := h2
              rw [exceptMap_v2_ok] at h2b
              obtain ⟨l2, hl2, rfl⟩ := h2b
              obtain ⟨_, rfl⟩ := npdotT_ok_elim hl2
              rw [einsum_len1 (by simpa using hk)] at hl
              simp only [Except.ok.injEq] at hl
              rw [← hl]
            · have h2b : Except.map NDVecs.v2 (einsum_ijk_ik_ij Ms vss) =
                  Except.ok o2 := by
                have h2c : (if Ms.length = 1 then
                    Except.map NDVecs.v2 (npdotT (Ms.headD []) vss)
                    else Except.map NDVecs.v2 (einsum_ijk_ik_ij Ms vss)) =
                    Except.ok o2 := h2
                rwa [if_neg hlen] at h2c
              rw [exceptMap_v2_ok] at h2b
              obtain ⟨l2, hl2, rfl⟩ := h2b
              rw [hl] at hl2
              simp only [Except.ok.injEq] at hl2
              rw [hl2]
  · intro M vss h3 hr hvh
    have hdim : rmatLastDim M = 3 := rmatLastDim_eq M 3 h3 hr
    refine ⟨?_, rvc_m2_ok M vss 3 hdim hvh⟩
    show (if M.length = 3 ∧ rmatLastDim M = 3 then
        Except.map NDVecs.v2 (npdotT M vss)
        else Except.error PyErr.shapeMismatch) = _
    rw [if_pos ⟨h3, hdim⟩, npdotT_ok_of_dim M vss 3 hdim hvh]
    rfl
  · intro M vss h3 hr hvh
    have hdim : rmatLastDim M = 3 := rmatLastDim_eq M 3 h3 hr
    refine ⟨?_, rvc_m3_single_ok M vss 3 hdim hvh⟩
    show Except.map NDVecs.v2 (einsum_ijk_ik_ij [M] vss) = _
    rw [einsum_len1 (by rw [hdim, hvh])]
    rfl
  · intro Ms vss hlen hMr hvr
    have hk : rmatLastDim (Ms.headD []) = (vss.headD []).length := by
      cases Ms with
      | nil =>
          have hv0 : vss = [] := by
            cases vss with
            | nil => rfl
            | cons v t => simp at hlen
          subst hv0
          rfl
      | cons M t =>
          cases vss with
          | nil => simp at hlen
          | cons v tv =>
              show rmatLastDim M = v.length
              rw [hMr M (List.mem_cons_self M t), hvr v (List.mem_cons_self v tv)]
    refine ⟨.v2 (List.zipWith matVecR Ms vss), ?_, ?_⟩
    · show Except.map NDVecs.v2 (einsum_ijk_ik_ij Ms vss) = _
      rw [einsum_aligned hk hlen]
      rfl
    · have hguard : matsLastDim (NDMats.m3 Ms) = vecsLastDim (NDVecs.v2 vss) := hk
      unfold RVC.rotate_vector_collection
      rw [if_neg (not_not_intro hguard)]
      by_cases hlen1 : Ms.length = 1
      · obtain ⟨M, rfl⟩ := List.length_eq_one.mp hlen1
        obtain ⟨v, rfl⟩ : ∃ v, vss = [v] := by
          cases vss with
          | nil => simp at hlen
          | cons v t =>
              cases t with
              | nil => exact ⟨v, rfl⟩
              | cons w t2 => simp at hlen
        show Except.map NDVecs.v2 (npdotT M [v]) = _
        rw [npdotT_ok_of_dim M [v] v.length (by simpa using hk) rfl]
        rfl
      · show (if Ms.length = 1 then
            Except.map NDVecs.v2 (npdotT (Ms.headD []) vss)
            else Except.map NDVecs.v2 (einsum_ijk_ik_ij Ms vss)) = _
        rw [if_neg hlen1, einsum_aligned hk hlen]
        rfl

/-- Witness for `rotate_vector_collection_impls_agree`: two 3×3 matrices
index-aligned with two 3-dimensional vectors. -/
theorem rotate_vector_collection_impls_agree_witness :
    (([[[2, 0, 0], [0, 2, 0], [0, 0, 2]], [[0, 1, 0], [1, 0, 0], [0, 0, 1]]] :
        List RMat).length = ([[1, 2, 3], [4, 5, 6]] : List RVec).length) ∧
    (∀ M ∈ ([[[2, 0, 0], [0, 2, 0], [0, 0, 2]], [[0, 1, 0], [1, 0, 0], [0, 0, 1]]] :
        List RMat), rmatLastDim M = 3) ∧
    (∀ v ∈ ([[1, 2, 3], [4, 5, 6]] : List RVec), v.length = 3) ∧
    (∃ o, R3Draw.rotate_vector_collection
        (.m3 [[[2, 0, 0], [0, 2, 0], [0, 0, 2]], [[0, 1, 0], [1, 0, 0], [0, 0, 1]]])
        (.v2 [[1, 2, 3], [4, 5, 6]]) = Except.ok o ∧
      RVC.rotate_vector_collection
        (.m3 [[[2, 0, 0], [0, 2, 0], [0, 0, 2]], [[0, 1, 0], [1, 0, 0], [0, 0, 1]]])
        (.v2 [[1, 2, 3], [4, 5, 6]]) = Except.ok o) := by
  have h1 : ([[[2, 0, 0], [0, 2, 0], [0, 0, 2]], [[0, 1, 0], [1, 0, 0], [0, 0, 1]]] :
      List RMat).length = ([[1, 2, 3], [4, 5, 6]] : List RVec).length := rfl
  have h2 : ∀ M ∈ ([[[2, 0, 0], [0, 2, 0], [0, 0, 2]],
      [[0, 1, 0], [1, 0, 0], [0, 0, 1]]] : List RMat), rmatLastDim M = 3 := by
    intro M hM
    simp only [List.mem_cons, List.not_mem_nil, or_false] at hM
    rcases hM with rfl | rfl <;> rfl
  have h3 : ∀ v ∈ ([[1, 2, 3], [4, 5, 6]] : List RVec), v.length = 3 := by
    intro v hv
    simp only [List.mem_cons, List.not_mem_nil, or_false] at hv
    rcases hv with rfl | rfl <;> rfl
  exact ⟨h1, h2, h3, rotate_vector_collection_impls_agree.2.2.2 _ _ h1 h2 h3⟩

/-! ### Claim C1: round-trip through rotation_matrices_from_vectors

Purely algebraic identities about the component operations, then the facts
about `arccos`, then the core computation. -/

lemma matVec3_rodrigues (c s : ℝ) (k v : Vec3) :
    matVec3 (R3D.rodrigues c s k) v =
      addV (smul3 c v)
        (addV (smul3 ((1 - c) * dot3 k v) k) (smul3 s (cross3 k v))) := by
  unfold R3D.rodrigues matAdd3 R3D.R1mat R3D.R2mat R3D.R3mat matVec3 addV smul3 dot3 cross3
  ext <;> (simp only; ring)

lemma dot3_smul_left (t : ℝ) (a b : Vec3) : dot3 (smul3 t a) b = t * dot3 a b := by
  unfold dot3 smul3
  ring

lemma cross3_smul_left (t : ℝ) (a b : Vec3) :
    cross3 (smul3 t a) b = smul3 t (cross3 a b) := by
  unfold cross3 smul3
  ext <;> (simp only; ring)

lemma cross3_smul_right (t : ℝ) (a b : Vec3) :
    cross3 a (smul3 t b) = smul3 t (cross3 a b) := by
  unfold cross3 smul3
  ext <;> (simp only; ring)

lemma dot3_cross_self_left (a b : Vec3) : dot3 (cross3 a b) a = 0 := by
  unfold dot3 cross3
  ring

lemma dot3_cross_self (a b : Vec3) :
    dot3 (cross3 a b) (cross3 a b) = dot3 a a * dot3 b b - dot3 a b ^ 2 := by
  unfold dot3 cross3
  ring

lemma cross3_cross3_self (a b : Vec3) (ha : dot3 a a = 1) :
    cross3 (cross3 a b) a = addV b (smul3 (-dot3 a b) a) := by
  unfold dot3 at ha
  unfold cross3 addV smul3 dot3
  ext
  · simp only
    linear_combination b.x * ha
  · simp only
    linear_combination b.y * ha
  · simp only
    linear_combination b.z * ha

lemma matVec3_smul (M : Mat3) (t : ℝ) (v : Vec3) :
    matVec3 M (smul3 t v) = smul3 t (matVec3 M v) := by
  unfold matVec3 smul3
  ext <;> (simp only; ring)

lemma normalized3_eq_smul (v : Vec3) : normalized3 v = smul3 (norm3 v)⁻¹ v := by
  unfold normalized3 smul3
  ext <;> (simp only; rw [div_eq_inv_mul])

lemma smul3_norm3_normalized (v : Vec3) (hv : v ≠ zero3) :
    smul3 (norm3 v) (normalized3 v) = v := by
  have hn := (norm3_pos v hv).ne'
  unfold normalized3 smul3
  ext <;> (simp only; field_simp)

lemma cross3_zero_left (b : Vec3) : cross3 zero3 b = zero3 := by
  unfold cross3 zero3
  ext <;> (simp only; ring)

lemma cross3_zero_right (a : Vec3) : cross3 a zero3 = zero3 := by
  unfold cross3 zero3
  ext <;> (simp only; ring)

lemma smul3_ne_zero {t : ℝ} {w : Vec3} (ht : t ≠ 0) (hw : w ≠ zero3) :
    smul3 t w ≠ zero3 := by
  intro h
  apply hw
  have hx := congrArg Vec3.x h
  have hy := congrArg Vec3.y h
  have hz := congrArg Vec3.z h
  unfold smul3 zero3 at hx hy hz
  simp only at hx hy hz
  unfold zero3
  ext
  · simp only
    rcases mul_eq_zero.mp hx with h | h
    · exact absurd h ht
    · exact h
  · simp only
    rcases mul_eq_zero.mp hy with h | h
    · exact absurd h ht
    · exact h
  · simp only
    rcases mul_eq_zero.mp hz with h | h
    · exact absurd h ht
    · exact h

lemma normalized3_cross_eq (v0 v1 : Vec3) (h0 : v0 ≠ zero3) (h1 : v1 ≠ zero3) :
    cross3 (normalized3 v0) (normalized3 v1) =
      smul3 ((norm3 v0)⁻¹ * (norm3 v1)⁻¹) (cross3 v0 v1) := by
  rw [normalized3_eq_smul v0, normalized3_eq_smul v1, cross3_smul_left,
    cross3_smul_right]
  unfold smul3
  ext <;> (simp only; ring)

lemma rmfv_unit_core (u0 u1 : Vec3) (hd0 : dot3 u0 u0 = 1) (hd1 : dot3 u1 u1 = 1)
    (hC : cross3 u0 u1 ≠ zero3) :
    matVec3 (R3D.rotation_matrix_from_angle (angle_between u0 u1)
      (if norm3 (cross3 u0 u1) = 0 ∨ angle_between u0 u1 = 0 then u0
        else R3D.vector_normal_to_plane u0 u1)) u0 = u1 := by
  have hnC : 0 < norm3 (cross3 u0 u1) := norm3_pos _ hC
  have hn2 := sq_norm3 (cross3 u0 u1)
  have hlag : dot3 (cross3 u0 u1) (cross3 u0 u1) = 1 - dot3 u0 u1 ^ 2 := by
    rw [dot3_cross_self, hd0, hd1]
    ring
  have hn2pos : 0 < norm3 (cross3 u0 u1) ^ 2 := by positivity
  have hd2 : dot3 u0 u1 ^ 2 < 1 := by nlinarith
  have hdlow : -1 ≤ dot3 u0 u1 := by nlinarith
  have hdhigh : dot3 u0 u1 ≤ 1 := by nlinarith
  have hdlt : dot3 u0 u1 < 1 := by nlinarith
  have hangle : angle_between u0 u1 = Real.arccos (dot3 u0 u1) := by
    unfold angle_between
    rw [normalized3_of_unit u0 hd0, normalized3_of_unit u1 hd1]
  have hangne : angle_between u0 u1 ≠ 0 := by
    rw [hangle]
    exact (Real.arccos_pos.mpr hdlt).ne'
  have hsin : Real.sin (Real.arccos (dot3 u0 u1)) = norm3 (cross3 u0 u1) := by
    rw [Real.sin_arccos, ← hlag, ← hn2, Real.sqrt_sq hnC.le]
  rw [if_neg (by push_neg; exact ⟨hnC.ne', hangne⟩)]
  unfold R3D.rotation_matrix_from_angle R3D.vector_normal_to_plane
  rw [normalized3_of_unit (normalized3 (cross3 u0 u1))
    (dot3_normalized_self (cross3 u0 u1) hC)]
  rw [hangle, Real.cos_arccos hdlow hdhigh, hsin, matVec3_rodrigues]
  have hku : dot3 (normalized3 (cross3 u0 u1)) u0 = 0 := by
    rw [normalized3_eq_smul, dot3_smul_left, dot3_cross_self_left]
    ring
  rw [hku]
  have hcr : cross3 (normalized3 (cross3 u0 u1)) u0 =
      smul3 (norm3 (cross3 u0 u1))⁻¹ (addV u1 (smul3 (-dot3 u0 u1) u0)) := by
    rw [normalized3_eq_smul, cross3_smul_left, cross3_cross3_self u0 u1 hd0]
  rw [hcr]
  have hne := hnC.ne'
  unfold addV smul3
  ext <;> (simp only; field_simp)

/-- The core single-pair computation behind C1: for non-parallel inputs the
matrix returned by `rotation_matrices_from_vectors` maps `v0` to the
unit vector of `v1` scaled by the norm of `v0`. -/
lemma rotation_matrix_from_vectors_apply (v0 v1 : Vec3)
    (hcross : cross3 v0 v1 ≠ zero3) :
    matVec3 (R3D.rotation_matrix_from_vectors v0 v1) v0 =
      smul3 (norm3 v0) (normalized3 v1) := by
  have h0 : v0 ≠ zero3 := by
    intro h
    exact hcross (h ▸ cross3_zero_left v1)
  have h1 : v1 ≠ zero3 := by
    intro h
    exact hcross (h ▸ cross3_zero_right v0)
  have hn0 := norm3_pos v0 h0
  have hn1 := norm3_pos v1 h1
  have hd0 : dot3 (normalized3 v0) (normalized3 v0) = 1 := dot3_normalized_self v0 h0
  have hd1 : dot3 (normalized3 v1) (normalized3 v1) = 1 := dot3_normalized_self v1 h1
  have hC : cross3 (normalized3 v0) (normalized3 v1) ≠ zero3 := by
    rw [normalized3_cross_eq v0 v1 h0 h1]
    exact smul3_ne_zero (mul_ne_zero (inv_ne_zero hn0.ne') (inv_ne_zero hn1.ne')) hcross
  have key := rmfv_unit_core (normalized3 v0) (normalized3 v1) hd0 hd1 hC
  have hM : R3D.rotation_matrix_from_vectors v0 v1 =
      R3D.rotation_matrix_from_angle
        (angle_between (normalized3 v0) (normalized3 v1))
        (if norm3 (cross3 (normalized3 v0) (normalized3 v1)) = 0 ∨
            angle_between (normalized3 v0) (normalized3 v1) = 0 then normalized3 v0
          else R3D.vector_normal_to_plane (normalized3 v0) (normalized3 v1)) := rfl
  rw [hM]
  conv_lhs =>
    arg 2
    rw [show v0 = smul3 (norm3 v0) (normalized3 v0) from
      (smul3_norm3_normalized v0 h0).symm]
  rw [matVec3_smul, key]

/-- C1 (amended): for index-aligned collections whose i-th vectors are
non-parallel (nonzero cross product — which forces both to be nonzero, i.e.
non-degenerate) and have equal norms (in particular unit vectors, as in the
spec's round-trip property), applying the matrices returned by
`rotation_matrices_from_vectors` to `v0` via `rotate_vector_collection`
reproduces `v1` at index i, exactly in the real-arithmetic model.  Without
the equal-norm hypothesis the claim is false — see the counterexample
`rotation_matrices_from_vectors_roundtrip_cex`: a rotation preserves norms,
so it maps `v0[i]` to a vector of norm `|v0[i]|`, not to `v1[i]`. -/
theorem rotation_matrices_from_vectors_roundtrip (v0 v1 : List Vec3) (i : ℕ)
    (a b : Vec3) (ha : v0[i]? = some a) (hb : v1[i]? = some b)
    (hcross : cross3 a b ≠ zero3) (hnorm : norm3 a = norm3 b) :
    (R3D.rotate_vector_collection (R3D.rotation_matrices_from_vectors v0 v1) v0)[i]?
      = some b := by
  have hb0 : b ≠ zero3 := by
    intro h
    exact hcross (h ▸ cross3_zero_right a)
  unfold R3D.rotate_vector_collection R3D.rotation_matrices_from_vectors
  rw [List.getElem?_zipWith_eq_some]
  refine ⟨R3D.rotation_matrix_from_vectors a b, a, ?_, ha, ?_⟩
  · rw [List.getElem?_zipWith_eq_some]
    exact ⟨a, b, ha, hb, rfl⟩
  · rw [rotation_matrix_from_vectors_apply a b hcross, hnorm,
      smul3_norm3_normalized b hb0]

/-- Witness for `rotation_matrices_from_vectors_roundtrip`: the unit vectors
ex and ey. -/
theorem rotation_matrices_from_vectors_roundtrip_witness :
    (([⟨1, 0, 0⟩] : List Vec3)[0]? = some ⟨1, 0, 0⟩) ∧
    (([⟨0, 1, 0⟩] : List Vec3)[0]? = some ⟨0, 1, 0⟩) ∧
    cross3 ⟨1, 0, 0⟩ ⟨0, 1, 0⟩ ≠ zero3 ∧
    norm3 ⟨1, 0, 0⟩ = norm3 ⟨0, 1, 0⟩ ∧
    (R3D.rotate_vector_collection
        (R3D.rotation_matrices_from_vectors [⟨1, 0, 0⟩] [⟨0, 1, 0⟩])
        [⟨1, 0, 0⟩])[0]? = some ⟨0, 1, 0⟩ := by
  have hcross : cross3 ⟨1, 0, 0⟩ ⟨0, 1, 0⟩ ≠ zero3 := by
    intro h
    have hz := congrArg Vec3.z h
    unfold cross3 zero3 at hz
    norm_num at hz
  have hnorm : norm3 ⟨1, 0, 0⟩ = norm3 ⟨0, 1, 0⟩ := by
    unfold norm3 dot3
    norm_num
  exact ⟨rfl, rfl, hcross, hnorm,
    rotation_matrices_from_vectors_roundtrip [⟨1, 0, 0⟩] [⟨0, 1, 0⟩] 0
      ⟨1, 0, 0⟩ ⟨0, 1, 0⟩ rfl rfl hcross hnorm⟩

/-- C1 refuted as literally stated: v0 = (2,0,0) and v1 = (0,1,0) are
non-degenerate (nonzero) and non-parallel (nonzero cross product), yet
applying the returned matrix to v0 yields (0,2,0), not v1 — the rotation
preserves the norm of v0. -/
theorem rotation_matrices_from_vectors_roundtrip_cex :
    (⟨2, 0, 0⟩ : Vec3) ≠ zero3 ∧ (⟨0, 1, 0⟩ : Vec3) ≠ zero3 ∧
    cross3 ⟨2, 0, 0⟩ ⟨0, 1, 0⟩ ≠ zero3 ∧
    (R3D.rotate_vector_collection
        (R3D.rotation_matrices_from_vectors [⟨2, 0, 0⟩] [⟨0, 1, 0⟩])
        [⟨2, 0, 0⟩])[0]? ≠ some ⟨0, 1, 0⟩ := by
  have h2 : (⟨2, 0, 0⟩ : Vec3) ≠ zero3 := by
    intro h
    have hx := congrArg Vec3.x h
    unfold zero3 at hx
    norm_num at hx
  have h1 : (⟨0, 1, 0⟩ : Vec3) ≠ zero3 := by
    intro h
    have hy := congrArg Vec3.y h
    unfold zero3 at hy
    norm_num at hy
  have hcross : cross3 ⟨2, 0, 0⟩ ⟨0, 1, 0⟩ ≠ zero3 := by
    intro h
    have hz := congrArg Vec3.z h
    unfold cross3 zero3 at hz
    norm_num at hz
  have happ := rotation_matrix_from_vectors_apply ⟨2, 0, 0⟩ ⟨0, 1, 0⟩ hcross
  have hnorm2 : norm3 ⟨2, 0, 0⟩ = 2 := by
    unfold norm3 dot3
    rw [show (2 : ℝ) * 2 + 0 * 0 + 0 * 0 = 2 ^ 2 by norm_num]
    exact Real.sqrt_sq (by norm_num)
  have hunit : normalized3 (⟨0, 1, 0⟩ : Vec3) = ⟨0, 1, 0⟩ := by
    apply normalized3_of_unit
    unfold dot3
    norm_num
  rw [hnorm2, hunit] at happ
  refine ⟨h2, h1, hcross, ?_⟩
  have hlist : (R3D.rotate_vector_collection
      (R3D.rotation_matrices_from_vectors [⟨2, 0, 0⟩] [⟨0, 1, 0⟩])
      [⟨2, 0, 0⟩])[0]? =
      some (matVec3 (R3D.rotation_matrix_from_vectors ⟨2, 0, 0⟩ ⟨0, 1, 0⟩)
        ⟨2, 0, 0⟩) := rfl
  rw [hlist, happ]
  intro h
  have hy := congrArg Vec3.y (Option.some.inj h)
  unfold smul3 at hy
  norm_num at hy

end Rotations
